import Mathlib

/-!
# Verification of the cobra-viper configuration-resolution engine

A shallow embedding of the configuration demo: the layered source lookup
(Flag > Environment > File), the binder that turns the merged snapshot into
the typed `Config` with an `Extensions` residual map, the validator driven
by the `validate:` struct tags of `config/config.go`, and the extension
accessor helpers of `config/extensions.go`.
-/

namespace CobraViper

/-- Untyped configuration values as produced by the YAML reader / viper:
scalars, ordered lists, and nested string-keyed mappings
(Go's `interface\x7b\x7d` in `map[string]interface\x7b\x7d`). -/
inductive ExtValue where
  | str (s : String)
  | int (n : Int)
  | bool (b : Bool)
  | list (xs : List ExtValue)
  | map (m : List (String × ExtValue))

/-- First-occurrence lookup in an association list modelling a Go
`map[string]interface\x7b\x7d`; `none` models the `nil` interface value
Go returns for a missing key. -/
def lookupExt (key : String) : List (String × ExtValue) → Option ExtValue
  | [] => none
  | (k, v) :: rest => if k = key then some v else lookupExt key rest

/-- Struct `AppConfig` from config/config.go. -/
structure AppConfig where
  name : String
  version : String
  environment : String
deriving Repr, DecidableEq

/-- Struct `ServerConfig` from config/config.go. -/
structure ServerConfig where
  host : String
  port : Int
  timeout : Int
deriving Repr, DecidableEq

/-- Struct `DatabaseConfig` from config/config.go. -/
structure DatabaseConfig where
  host : String
  port : Int
  username : String
  password : String
  name : String
deriving Repr, DecidableEq

/-- Struct `LoggingConfig` from config/config.go. -/
structure LoggingConfig where
  level : String
  format : String
deriving Repr, DecidableEq

/-- Struct `Config` from config/config.go, with the `Extensions` residual bag
(`mapstructure:",remain"`, see the package README) that captures every
top-level group not matching a fixed field. -/
structure Config where
  app : AppConfig
  server : ServerConfig
  database : DatabaseConfig
  logging : LoggingConfig
  extensions : List (String × ExtValue)

/-- Function `GetExtensionString` from config/extensions.go, the loop body:
`cur` is the Go variable `current` (`none` = the `nil` interface).
At the last key it requires a map holding a string; on the way down it
requires a map and steps into it, a missing key yielding `nil`. -/
def getExtensionStringAux : Option ExtValue → List String → String × Bool
  | _, [] => ("", false)
  | cur, [key] =>
    match cur with
    | some (ExtValue.map m) =>
      match lookupExt key m with
      | some (ExtValue.str val) => (val, true)
      | _ => ("", false)
    | _ => ("", false)
  | cur, key :: keys =>
    match cur with
    | some (ExtValue.map m) => getExtensionStringAux (lookupExt key m) keys
    | _ => ("", false)

/-- Method `(c *Config) GetExtensionString(keys ...string) (string, bool)`. -/
def Config.GetExtensionString (c : Config) (keys : List String) : String × Bool :=
  getExtensionStringAux (some (ExtValue.map c.extensions)) keys

/-- Function `GetExtensionBool` from config/extensions.go, the loop body. -/
def getExtensionBoolAux : Option ExtValue → List String → Bool × Bool
  | _, [] => (false, false)
  | cur, [key] =>
    match cur with
    | some (ExtValue.map m) =>
      match lookupExt key m with
      | some (ExtValue.bool val) => (val, true)
      | _ => (false, false)
    | _ => (false, false)
  | cur, key :: keys =>
    match cur with
    | some (ExtValue.map m) => getExtensionBoolAux (lookupExt key m) keys
    | _ => (false, false)

/-- Method `(c *Config) GetExtensionBool(keys ...string) (bool, bool)`. -/
def Config.GetExtensionBool (c : Config) (keys : List String) : Bool × Bool :=
  getExtensionBoolAux (some (ExtValue.map c.extensions)) keys

/-- Function `GetExtensionInt` from config/extensions.go, the loop body. -/
def getExtensionIntAux : Option ExtValue → List String → Int × Bool
  | _, [] => (0, false)
  | cur, [key] =>
    match cur with
    | some (ExtValue.map m) =>
      match lookupExt key m with
      | some (ExtValue.int val) => (val, true)
      | _ => (0, false)
    | _ => (0, false)
  | cur, key :: keys =>
    match cur with
    | some (ExtValue.map m) => getExtensionIntAux (lookupExt key m) keys
    | _ => (0, false)

/-- Method `(c *Config) GetExtensionInt(keys ...string) (int, bool)`. -/
def Config.GetExtensionInt (c : Config) (keys : List String) : Int × Bool :=
  getExtensionIntAux (some (ExtValue.map c.extensions)) keys

/-- Reference path resolution: follow the key path through nested maps,
`none` when a key is missing or a non-map is traversed. Used to state what
the helpers' `true` results mean. -/
def resolvePath : ExtValue → List String → Option ExtValue
  | v, [] => some v
  | ExtValue.map m, key :: keys =>
    match lookupExt key m with
    | some v => resolvePath v keys
    | none => none
  | _, _ :: _ => none

/-- Following the claim's words, the intended result of
`GetExtensionString`: `(value, true)` exactly when the full key path
resolves through `Extensions` to a string, `("", false)` otherwise. -/
def extensionStringSpec (c : Config) (keys : List String) : String × Bool :=
  match resolvePath (ExtValue.map c.extensions) keys with
  | some (ExtValue.str s) => (s, true)
  | _ => ("", false)

/-- Following the claim's words, the intended result of
`GetExtensionBool`: `(value, true)` exactly when the full key path
resolves through `Extensions` to a boolean, `(false, false)` otherwise. -/
def extensionBoolSpec (c : Config) (keys : List String) : Bool × Bool :=
  match resolvePath (ExtValue.map c.extensions) keys with
  | some (ExtValue.bool b) => (b, true)
  | _ => (false, false)

/-- Following the claim's words, the intended result of
`GetExtensionInt`: `(value, true)` exactly when the full key path
resolves through `Extensions` to an integer, `(0, false)` otherwise. -/
def extensionIntSpec (c : Config) (keys : List String) : Int × Bool :=
  match resolvePath (ExtValue.map c.extensions) keys with
  | some (ExtValue.int n) => (n, true)
  | _ => (0, false)

/-! ## Validator

`validateConfig` in cmd/root.go calls `validator.New().Struct(cfg)`
(go-playground/validator), which walks the struct fields in declaration
order, diving into nested structs, and evaluates each field's `validate:`
tags left to right, recording the first failing tag of a field as one
`FieldError` and continuing with the remaining fields (no short-circuit
across fields). The tags present in config/config.go are
`required`, `omitempty`, `oneof=...`, `gte=...`, `lte=...`. -/

/-- A validation tag as declared in config/config.go. -/
inductive VRule where
  | required
  | omitempty
  | oneof (allowed : List String)
  | gte (n : Int)
  | lte (n : Int)
deriving Repr, DecidableEq

/-- The value of one struct field as the validator sees it: a string, an
int, or a nested struct (of which only zero-ness matters to `required`). -/
inductive FieldVal where
  | str (s : String)
  | intv (n : Int)
  | structv (isZero : Bool)
deriving Repr, DecidableEq

/-- Go zero-value test used by `required` and `omitempty`. -/
def FieldVal.isZero : FieldVal → Bool
  | .str s => s = ""
  | .intv n => n = 0
  | .structv z => z

/-- Whether one tag passes on a value (`omitempty` is handled by
`runRules`, where it short-circuits the remaining tags of the field). -/
def rulePasses (v : FieldVal) : VRule → Bool
  | .required => !v.isZero
  | .omitempty => true
  | .oneof allowed =>
    match v with
    | .str s => allowed.contains s
    | _ => true
  | .gte n =>
    match v with
    | .intv m => n ≤ m
    | _ => true
  | .lte n =>
    match v with
    | .intv m => m ≤ n
    | _ => true

/-- One validation failure: the namespaced field path, the failing tag, and
the offending value, as carried by a go-playground `FieldError`. -/
structure Violation where
  path : String
  rule : VRule
  value : FieldVal
deriving Repr, DecidableEq

/-- Evaluate one field's tag list left to right: `omitempty` on a zero
value skips the rest of the field's tags; the first failing tag yields the
field's single violation; otherwise continue. -/
def runRules (path : String) (v : FieldVal) : List VRule → List Violation
  | [] => []
  | VRule.omitempty :: rest => if v.isZero then [] else runRules path v rest
  | r :: rest => if rulePasses v r then runRules path v rest else [⟨path, r, v⟩]

/-- Zero-struct test for `AppConfig` (what `required` on the `App` field
checks). -/
def AppConfig.isZero (a : AppConfig) : Bool :=
  a.name = "" && a.version = "" && a.environment = ""

/-- The allowed set of `app.environment` values
(`oneof=development staging production`). -/
def allowedEnvironments : List String := ["development", "staging", "production"]

/-- One field declaration of the typed config: namespaced path, whether the
Go field is a string, and its `validate:` tags, in declaration order.
Transcribed from config/config.go. -/
structure FieldDecl where
  path : String
  isStringField : Bool
  rules : List VRule
deriving Repr, DecidableEq

/-- The `validate:` tag table of config/config.go, in the order
go-playground/validator visits the fields (declaration order, diving into
nested structs after evaluating the struct field's own tags). -/
def configFieldDecls : List FieldDecl :=
  [⟨"Config.App", false, [.required]⟩,
   ⟨"Config.App.Name", true, [.required]⟩,
   ⟨"Config.App.Version", true, []⟩,
   ⟨"Config.App.Environment", true, [.omitempty, .oneof allowedEnvironments]⟩,
   ⟨"Config.Server", false, []⟩,
   ⟨"Config.Server.Host", true, []⟩,
   ⟨"Config.Server.Port", false, [.gte 1024, .lte 9000]⟩,
   ⟨"Config.Server.Timeout", false, []⟩,
   ⟨"Config.Database", false, []⟩,
   ⟨"Config.Database.Host", true, []⟩,
   ⟨"Config.Database.Port", false, []⟩,
   ⟨"Config.Database.Username", true, []⟩,
   ⟨"Config.Database.Password", true, []⟩,
   ⟨"Config.Database.Name", true, []⟩,
   ⟨"Config.Logging", false, []⟩,
   ⟨"Config.Logging.Level", true, []⟩,
   ⟨"Config.Logging.Format", true, []⟩]

/-- The value the validator reads at each declared field path. -/
def fieldValue (cfg : Config) : String → FieldVal
  | "Config.App" => .structv cfg.app.isZero
  | "Config.App.Name" => .str cfg.app.name
  | "Config.App.Version" => .str cfg.app.version
  | "Config.App.Environment" => .str cfg.app.environment
  | "Config.Server" => .structv (cfg.server = ⟨"", 0, 0⟩)
  | "Config.Server.Host" => .str cfg.server.host
  | "Config.Server.Port" => .intv cfg.server.port
  | "Config.Server.Timeout" => .intv cfg.server.timeout
  | "Config.Database" => .structv (cfg.database = ⟨"", 0, "", "", ""⟩)
  | "Config.Database.Host" => .str cfg.database.host
  | "Config.Database.Port" => .intv cfg.database.port
  | "Config.Database.Username" => .str cfg.database.username
  | "Config.Database.Password" => .str cfg.database.password
  | "Config.Database.Name" => .str cfg.database.name
  | "Config.Logging" => .structv (cfg.logging = ⟨"", ""⟩)
  | "Config.Logging.Level" => .str cfg.logging.level
  | "Config.Logging.Format" => .str cfg.logging.format
  | _ => .str ""

/-- Function `validateConfig` from cmd/root.go: run every declared rule against the
bound value, collecting all violations in field-declaration order. -/
def validateConfig (cfg : Config) : List Violation :=
  (configFieldDecls.map fun d => runRules d.path (fieldValue cfg d.path) d.rules).flatten

/-! ## Binder

cmd/root.go binds the merged snapshot with `v.UnmarshalExact(&cfg)`; the
coercion and `",remain"` capture are performed by viper/mapstructure. -/

/-- The merged snapshot (viper's `AllSettings()`): top-level group names to
nested values. -/
def ConfigTree := List (String × ExtValue)

/-- The four top-level groups owned by fixed fields of `Config`. -/
def fixedGroups : List String := ["app", "server", "database", "logging"]

/-- A binder failure: a value that cannot be coerced to the declared type
of its field, as `TypeMismatch\x7bkey, expected, actual\x7d`. -/
inductive BindError where
  | typeMismatch (key : String) (expected : String) (actual : ExtValue)

/-- Modelled from the spec: the Binder's group access (the decoding step of
`UnmarshalExact`, which lives in viper/mapstructure, not in this
repository). An absent group leaves all its fields at their zero values; a
group that is present but not a mapping cannot decode into a struct. -/
def getGroup (t : ConfigTree) (g : String) :
    Except BindError (List (String × ExtValue)) :=
  match lookupExt g t with
  | none => .ok []
  | some (ExtValue.map m) => .ok m
  | some v => .error (.typeMismatch g "map" v)

/-- Modelled from the spec: the Binder's coercion into a string field —
"string passthrough", anything else a `TypeMismatch`; an absent key takes
the zero value `""`. -/
def asStr (key : String) : Option ExtValue → Except BindError String
  | none => .ok ""
  | some (ExtValue.str s) => .ok s
  | some v => .error (.typeMismatch key "string" v)

/-- Decimal value of a non-empty all-digit character list, `none` for
anything else. -/
def digitsToNat? (l : List Char) : Option Nat :=
  if l ≠ [] ∧ l.all Char.isDigit then
    some (l.foldl (fun acc c => acc * 10 + (c.toNat - 48)) 0)
  else none

/-- Modelled from the spec: the "string→integer parse" — an optional sign
followed by decimal digits; `none` for a non-numeric string. -/
def parseInt? (s : String) : Option Int :=
  match s.data with
  | '-' :: rest => (digitsToNat? rest).map fun n => -(n : Int)
  | '+' :: rest => (digitsToNat? rest).map fun n => (n : Int)
  | l => (digitsToNat? l).map fun n => (n : Int)

/-- Modelled from the spec: the Binder's coercion into an integer field —
integer passthrough, string→integer parse failing with `TypeMismatch` on
a non-numeric string; an absent key takes the zero value `0`. -/
def asInt (key : String) : Option ExtValue → Except BindError Int
  | none => .ok 0
  | some (ExtValue.int n) => .ok n
  | some (ExtValue.str s) =>
    match parseInt? s with
    | some n => .ok n
    | none => .error (.typeMismatch key "int" (.str s))
  | some v => .error (.typeMismatch key "int" v)

/-- Chain two fallible binding steps, propagating the first error, as the
Go code's early `return nil, err` does. -/
def andThenE {α β : Type} :
    Except BindError α → (α → Except BindError β) → Except BindError β
  | .error e, _ => .error e
  | .ok a, f => f a

/-- Bind the `app` group of the snapshot into `AppConfig`. -/
def bindApp (t : ConfigTree) : Except BindError AppConfig :=
  andThenE (getGroup t "app") fun m =>
  andThenE (asStr "app.name" (lookupExt "name" m)) fun name =>
  andThenE (asStr "app.version" (lookupExt "version" m)) fun version =>
  andThenE (asStr "app.environment" (lookupExt "environment" m)) fun environment =>
  .ok ⟨name, version, environment⟩

/-- Bind the `server` group of the snapshot into `ServerConfig`. -/
def bindServer (t : ConfigTree) : Except BindError ServerConfig :=
  andThenE (getGroup t "server") fun m =>
  andThenE (asStr "server.host" (lookupExt "host" m)) fun host =>
  andThenE (asInt "server.port" (lookupExt "port" m)) fun port =>
  andThenE (asInt "server.timeout" (lookupExt "timeout" m)) fun timeout =>
  .ok ⟨host, port, timeout⟩

/-- Bind the `database` group of the snapshot into `DatabaseConfig`. -/
def bindDatabase (t : ConfigTree) : Except BindError DatabaseConfig :=
  andThenE (getGroup t "database") fun m =>
  andThenE (asStr "database.host" (lookupExt "host" m)) fun host =>
  andThenE (asInt "database.port" (lookupExt "port" m)) fun port =>
  andThenE (asStr "database.username" (lookupExt "username" m)) fun username =>
  andThenE (asStr "database.password" (lookupExt "password" m)) fun password =>
  andThenE (asStr "database.name" (lookupExt "name" m)) fun name =>
  .ok ⟨host, port, username, password, name⟩

/-- Bind the `logging` group of the snapshot into `LoggingConfig`. -/
def bindLogging (t : ConfigTree) : Except BindError LoggingConfig :=
  andThenE (getGroup t "logging") fun m =>
  andThenE (asStr "logging.level" (lookupExt "level" m)) fun level =>
  andThenE (asStr "logging.format" (lookupExt "format" m)) fun format =>
  .ok ⟨level, format⟩

/-- The `mapstructure:",remain"` capture: every top-level entry whose group
is not a fixed group goes verbatim into `Extensions`. -/
def extensionsOf (t : ConfigTree) : List (String × ExtValue) :=
  t.filter fun p => !(fixedGroups.contains p.1)

/-- The part of the snapshot the fixed fields are decoded from: the
entries under the four fixed groups. -/
def restrictFixed (t : ConfigTree) : ConfigTree :=
  t.filter fun p => fixedGroups.contains p.1

/-- Modelled from the spec: `bind(ConfigTree) -> (TypedConfig, error)` —
the whole of `v.UnmarshalExact(&cfg)` with the `",remain"` field: fixed
fields coerced group by group in declaration order, the residue placed in
`Extensions`. -/
def bind (t : ConfigTree) : Except BindError Config :=
  andThenE (bindApp t) fun app =>
  andThenE (bindServer t) fun server =>
  andThenE (bindDatabase t) fun database =>
  andThenE (bindLogging t) fun logging =>
  .ok ⟨app, server, database, logging, extensionsOf t⟩

/-- The failure modes of one resolution call in `loadAndValidateConfig`:
an unmarshal (binder) error, or a non-empty violation list. -/
inductive ResolutionError where
  | unmarshalError (e : BindError)
  | validationFailed (vs : List Violation)

/-- Function `loadAndValidateConfig` from cmd/root.go, parametrised by the validator
it runs after a successful bind: an unmarshal error returns before the
validator is ever consulted; a non-empty violation list is an error; else
the typed config. -/
def loadAndValidateWith (validate : Config → List Violation) (t : ConfigTree) :
    Except ResolutionError Config :=
  match bind t with
  | .error e => .error (.unmarshalError e)
  | .ok cfg =>
    match validate cfg with
    | [] => .ok cfg
    | v :: vs => .error (.validationFailed (v :: vs))

/-- Function `loadAndValidateConfig` from cmd/root.go: bind, then validate. -/
def loadAndValidateConfig (t : ConfigTree) : Except ResolutionError Config :=
  loadAndValidateWith validateConfig t

/-! ## Merger: the layered lookup

`init` in cmd/root.go binds thirteen flags to viper keys and `initConfig`
wires the `MYAPP_` environment prefix with `.`→`_` replacement; the layered
lookup itself (Flag > Environment > File) is viper's. -/

/-- The flag-to-key binding table registered by `init` in cmd/root.go
(viper key, flag name, shorthand). -/
def flagBindings : List (String × String × String) :=
  [("app.name", "app-name", "n"),
   ("app.version", "app-version", "v"),
   ("app.environment", "app-environment", "e"),
   ("server.host", "server-host", ""),
   ("server.port", "server-port", "p"),
   ("server.timeout", "server-timeout", "t"),
   ("database.host", "db-host", ""),
   ("database.port", "db-port", ""),
   ("database.username", "db-username", "u"),
   ("database.password", "db-password", ""),
   ("database.name", "db-name", "d"),
   ("logging.level", "log-level", "l"),
   ("logging.format", "log-format", "f")]

/-- The environment-variable name of a canonical key, per
`SetEnvPrefix("MYAPP")` and `SetEnvKeyReplacer(".", "_")` in `initConfig`:
dots become underscores, the whole is upper-cased and prefixed. -/
def envVarName (key : String) : String :=
  "MYAPP_" ++ String.mk (key.data.map fun c => if c = '.' then '_' else c.toUpper)

/-- Which layer a resolved value came from. -/
inductive Layer where
  | flagL
  | envL
  | fileL
deriving Repr, DecidableEq

/-- One snapshot of the three sources: flag values by canonical key
(present iff the flag was explicitly passed), the process environment by
variable name (values are strings), and the parsed file by canonical key. -/
structure Sources where
  flag : String → Option ExtValue
  env : String → Option String
  file : String → Option ExtValue

/-- Modelled from the spec: the Merger's per-key resolution (viper's `Get`,
not in this repository) — iterate Flag, then Environment, then File, and
take the first layer where the key is present; absent everywhere means
absent from the snapshot. The winning value is tagged with its layer. -/
def resolveKey (src : Sources) (key : String) : Option (Layer × ExtValue) :=
  match src.flag key with
  | some v => some (.flagL, v)
  | none =>
    match src.env (envVarName key) with
    | some s => some (.envL, .str s)
    | none =>
      match src.file key with
      | some v => some (.fileL, v)
      | none => none

/-! ## initConfig's file-read outcome -/

/-- The outcome of `v.ReadInConfig()` as `initConfig` distinguishes it. -/
inductive ReadResult where
  | found (path : String)
  | notFound
  | otherError (msg : String)
deriving Repr, DecidableEq

/-- The status `initConfig` reports for each read outcome. Every branch
returns normally — none aborts the run. -/
inductive InitStatus where
  | usingFile (path : String)
  | infoNoConfigFile
  | readError (msg : String)
deriving Repr, DecidableEq

/-- Function `initConfig` from cmd/root.go, the `ReadInConfig` branch: success
prints the file used; `ConfigFileNotFoundError` prints the informational
"No config file found, using flags and environment variables only"; any
other error prints to stderr. All three continue. -/
def initConfigStatus : ReadResult → InitStatus
  | .found path => .usingFile path
  | .notFound => .infoNoConfigFile
  | .otherError msg => .readError msg

/-! ## Scenario definitions used in statements and witnesses -/

/-- The violations of one field path. -/
def violationsAt (cfg : Config) (q : String) : List Violation :=
  (validateConfig cfg).filter fun vi => vi.path = q

/-- The scenario of the repository's override test: file sets everything,
env sets `app.name`, the flag sets `server.host`. -/
def testSources : Sources where
  flag := fun k => if k = "server.host" then some (.str "flag-host") else none
  env := fun n => if n = "MYAPP_APP_NAME" then some "EnvAppName" else none
  file := fun k =>
    if k = "app.name" then some (.str "ConfigAppName")
    else if k = "server.host" then some (.str "localhost")
    else if k = "server.port" then some (.int 8080)
    else none

/-- Sources where `app.name` is additionally set by flag and env, so that
all three layers carry it. -/
def testSourcesAllThree : Sources :=
  { testSources with
    flag := fun k =>
      if k = "app.name" then some (.str "FlagAppName")
      else testSources.flag k,
    env := fun n =>
      if n = "MYAPP_APP_NAME" then some "EnvAppName" else none }

/-- A valid configuration except for its port, used to witness C7. -/
def cfgWithPort (n : Int) : Config :=
  ⟨⟨"MyApp", "1.0.0", "production"⟩, ⟨"localhost", n, 30⟩,
    ⟨"db.local", 5432, "user", "password", "dbname"⟩, ⟨"info", "json"⟩, []⟩

/-- A configuration with an empty app name but a non-zero `App` struct. -/
def cfgEmptyName : Config :=
  ⟨⟨"", "1.0.0", "production"⟩, ⟨"localhost", 8080, 30⟩,
    ⟨"db.local", 5432, "user", "password", "dbname"⟩, ⟨"info", "json"⟩, []⟩

/-- The snapshot of the C5 witness: a server port that is not a number. -/
def badPortTree : ConfigTree :=
  [("server", ExtValue.map [("port", ExtValue.str "not-a-number")])]

/-- The all-zero configuration a bind of the empty snapshot produces. -/
def defaultConfig : Config :=
  ⟨⟨"", "", ""⟩, ⟨"", 0, 0⟩, ⟨"", 0, "", "", ""⟩, ⟨"", ""⟩, []⟩

/-- The snapshot of the C2 witness: one extension group `custom` beside a
normal `app` group. -/
def customTree : ConfigTree :=
  [("custom", ExtValue.map [("team", ExtValue.str "platform")]),
    ("app", ExtValue.map [("name", ExtValue.str "myapp")])]

/-! ## Helper lemmas about the validator -/

/-- Evaluation of `runRules` on a leading `omitempty`. -/
theorem runRules_cons_omitempty (p : String) (v : FieldVal)
    (rest : List VRule) :
    runRules p v (.omitempty :: rest) =
      if v.isZero then [] else runRules p v rest := rfl

/-- Evaluation of `runRules` on any other leading tag. -/
theorem runRules_cons_ne (p : String) (v : FieldVal) (r : VRule)
    (rest : List VRule) (hr : r ≠ VRule.omitempty) :
    runRules p v (r :: rest) =
      if rulePasses v r then runRules p v rest else [⟨p, r, v⟩] := by
  cases r
  case omitempty => exact absurd rfl hr
  all_goals rfl

/-- Every violation `runRules` emits carries the path it was called with. -/
theorem runRules_mem_path {p : String} {v : FieldVal} {rules : List VRule}
    {vi : Violation} (h : vi ∈ runRules p v rules) : vi.path = p := by
  induction rules with
  | nil => simp [runRules] at h
  | cons r rest ih =>
    by_cases hr : r = VRule.omitempty
    · subst hr
      rw [runRules_cons_omitempty] at h
      split at h
      · simp at h
      · exact ih h
    · rw [runRules_cons_ne p v r rest hr] at h
      split at h
      · exact ih h
      · simp at h
        rw [h]

/-- A field's violations vanish under a filter for a different path. -/
theorem filter_runRules_ne {p q : String} (v : FieldVal) (rules : List VRule)
    (h : p ≠ q) :
    (runRules p v rules).filter (fun vi => vi.path = q) = [] := by
  rw [List.filter_eq_nil_iff]
  intro vi hvi
  simp [runRules_mem_path hvi, h]

/-- A field's violations survive a filter for its own path. -/
theorem filter_runRules_self (p : String) (v : FieldVal)
    (rules : List VRule) :
    (runRules p v rules).filter (fun vi => vi.path = p) =
      runRules p v rules := by
  rw [List.filter_eq_self]
  intro vi hvi
  simp [runRules_mem_path hvi]

/-- Evaluation of a lone `required` tag. -/
theorem runRules_required (p : String) (v : FieldVal) :
    runRules p v [.required] =
      if v.isZero then [⟨p, .required, v⟩] else [] := by
  cases h : v.isZero <;> simp [runRules, rulePasses, h]

/-- Evaluation of the `omitempty,oneof=...` tag pair. -/
theorem runRules_omitempty_oneof (p : String) (v : FieldVal)
    (allowed : List String) :
    runRules p v [.omitempty, .oneof allowed] =
      if v.isZero then []
      else if rulePasses v (.oneof allowed) then []
      else [⟨p, .oneof allowed, v⟩] := by
  cases h : v.isZero with
  | true => simp [runRules, h]
  | false =>
    cases hp : rulePasses v (.oneof allowed) <;>
      simp [runRules, h, hp]

/-- Evaluation of the `gte=lo,lte=hi` tag pair. -/
theorem runRules_gte_lte (p : String) (v : FieldVal) (lo hi : Int) :
    runRules p v [.gte lo, .lte hi] =
      if rulePasses v (.gte lo) then
        (if rulePasses v (.lte hi) then [] else [⟨p, .lte hi, v⟩])
      else [⟨p, .gte lo, v⟩] := by
  cases h : rulePasses v (.gte lo) with
  | true =>
    cases h2 : rulePasses v (.lte hi) <;> simp [runRules, h, h2]
  | false => simp [runRules, h]

/-- Function `validateConfig` in closed form: the fields with an empty tag list
contribute nothing, leaving the four rule-bearing fields in declaration
order. -/
theorem validateConfig_eq (cfg : Config) :
    validateConfig cfg =
      runRules "Config.App" (.structv cfg.app.isZero) [.required] ++
      (runRules "Config.App.Name" (.str cfg.app.name) [.required] ++
      (runRules "Config.App.Environment" (.str cfg.app.environment)
          [.omitempty, .oneof allowedEnvironments] ++
      (runRules "Config.Server.Port" (.intv cfg.server.port)
          [.gte 1024, .lte 9000] ++ []))) := rfl

/-- The violations at `Config.Server.Port` are exactly what the
`gte=1024,lte=9000` tags produce on the bound port. -/
theorem violationsAt_port (cfg : Config) :
    violationsAt cfg "Config.Server.Port" =
      runRules "Config.Server.Port" (.intv cfg.server.port)
        [.gte 1024, .lte 9000] := by
  rw [violationsAt, validateConfig_eq]
  simp only [List.filter_append, List.filter_nil]
  rw [filter_runRules_ne _ _ (by simp),
    filter_runRules_ne _ _ (by simp),
    filter_runRules_ne _ _ (by simp),
    filter_runRules_self]
  simp

/-- The violations at `Config.App.Environment` are exactly what the
`omitempty,oneof=...` tags produce on the bound environment string. -/
theorem violationsAt_environment (cfg : Config) :
    violationsAt cfg "Config.App.Environment" =
      runRules "Config.App.Environment" (.str cfg.app.environment)
        [.omitempty, .oneof allowedEnvironments] := by
  rw [violationsAt, validateConfig_eq]
  simp only [List.filter_append, List.filter_nil]
  rw [filter_runRules_ne _ _ (by simp),
    filter_runRules_ne _ _ (by simp),
    filter_runRules_self,
    filter_runRules_ne _ _ (by simp)]
  simp

/-! ## Claim theorems: precedence (C1, C9) -/

/-- C1: for a canonical key explicitly set in all three layers — flag
passed on the command line, `MYAPP_...` environment variable set, and key
present in the file — the resolved value is the Flag-layer value, tagged as
coming from the Flag layer, never from Environment or File. -/
theorem resolveKey_flag_wins (src : Sources) (key : String) (vF : ExtValue)
    (sE : String) (vFile : ExtValue)
    (hf : src.flag key = some vF)
    (he : src.env (envVarName key) = some sE)
    (hfi : src.file key = some vFile) :
    resolveKey src key = some (Layer.flagL, vF) := by
  simp [resolveKey, hf]

/-- Witness for C1 at the test scenario: `app.name` set in all three
layers resolves to the flag's value. -/
theorem resolveKey_flag_wins_witness :
    resolveKey testSourcesAllThree "app.name" =
      some (Layer.flagL, .str "FlagAppName") :=
  resolveKey_flag_wins testSourcesAllThree "app.name"
    (.str "FlagAppName") "EnvAppName" (.str "ConfigAppName")
    rfl rfl rfl

/-- C9: keys absent from higher layers fall through — in one and the same
resolution call, a key set only in the environment resolves to the
environment value, a key set only in the file resolves to the file value,
and a key set by flag resolves to the flag value. -/
theorem resolveKey_fall_through (src : Sources) (k1 k2 k3 : String)
    (e1 : String) (f2 v3 : ExtValue)
    (h1f : src.flag k1 = none) (h1e : src.env (envVarName k1) = some e1)
    (h2f : src.flag k2 = none) (h2e : src.env (envVarName k2) = none)
    (h2fi : src.file k2 = some f2)
    (h3f : src.flag k3 = some v3) :
    resolveKey src k1 = some (Layer.envL, .str e1) ∧
    resolveKey src k2 = some (Layer.fileL, f2) ∧
    resolveKey src k3 = some (Layer.flagL, v3) := by
  refine ⟨?_, ?_, ?_⟩ <;> simp [resolveKey, h1f, h1e, h2f, h2e, h2fi, h3f]

/-- Witness for C9 at the "Mixed Priorities" test scenario: `app.name`
comes from the environment, `server.port` from the file, `server.host`
from the flag, all in the same call. -/
theorem resolveKey_fall_through_witness :
    resolveKey testSources "app.name" =
      some (Layer.envL, .str "EnvAppName") ∧
    resolveKey testSources "server.port" =
      some (Layer.fileL, .int 8080) ∧
    resolveKey testSources "server.host" =
      some (Layer.flagL, .str "flag-host") :=
  resolveKey_fall_through testSources "app.name" "server.port" "server.host"
    "EnvAppName" (.int 8080) (.str "flag-host")
    rfl rfl rfl rfl rfl rfl

/-! ## Claim theorems: validation rule semantics (C7, C8) -/

/-- C7: the `gte=1024,lte=9000` bounds on `server.port` are inclusive — a
bound port of exactly 1024 or exactly 9000 yields no violation at
`Config.Server.Port`, while 1023 and 9001 each yield exactly one. -/
theorem port_range_boundary (cfg : Config) :
    (cfg.server.port = 1024 → violationsAt cfg "Config.Server.Port" = []) ∧
    (cfg.server.port = 9000 → violationsAt cfg "Config.Server.Port" = []) ∧
    (cfg.server.port = 1023 →
      violationsAt cfg "Config.Server.Port" =
        [⟨"Config.Server.Port", .gte 1024, .intv 1023⟩]) ∧
    (cfg.server.port = 9001 →
      violationsAt cfg "Config.Server.Port" =
        [⟨"Config.Server.Port", .lte 9000, .intv 9001⟩]) := by
  refine ⟨fun h => ?_, fun h => ?_, fun h => ?_, fun h => ?_⟩ <;>
    rw [violationsAt_port, h, runRules_gte_lte] <;>
    simp [rulePasses]

/-- Witness for C7 at concrete ports 1024, 9000, 1023 and 9001. -/
theorem port_range_boundary_witness :
    violationsAt (cfgWithPort 1024) "Config.Server.Port" = [] ∧
    violationsAt (cfgWithPort 9000) "Config.Server.Port" = [] ∧
    violationsAt (cfgWithPort 1023) "Config.Server.Port" =
      [⟨"Config.Server.Port", .gte 1024, .intv 1023⟩] ∧
    violationsAt (cfgWithPort 9001) "Config.Server.Port" =
      [⟨"Config.Server.Port", .lte 9000, .intv 9001⟩] :=
  ⟨(port_range_boundary (cfgWithPort 1024)).1 rfl,
    (port_range_boundary (cfgWithPort 9000)).2.1 rfl,
    (port_range_boundary (cfgWithPort 1023)).2.2.1 rfl,
    (port_range_boundary (cfgWithPort 9001)).2.2.2 rfl⟩

/-- C8: the `omitempty,oneof=development staging production` pair on
`app.environment` yields a violation exactly when the bound string is
non-empty and not in the allowed set; the empty string is exempt. -/
theorem environment_enumeration (cfg : Config) :
    violationsAt cfg "Config.App.Environment" =
      if cfg.app.environment = "" ∨
          allowedEnvironments.contains cfg.app.environment then []
      else [⟨"Config.App.Environment", .oneof allowedEnvironments,
        .str cfg.app.environment⟩] := by
  rw [violationsAt_environment, runRules_omitempty_oneof]
  by_cases h1 : cfg.app.environment = ""
  · simp [FieldVal.isZero, h1]
  · by_cases h2 : allowedEnvironments.contains cfg.app.environment
    · simp [FieldVal.isZero, rulePasses, h1, h2]
    · simp [FieldVal.isZero, rulePasses, h1, h2]

/-! ## Claim theorems: the Required rule (C3) -/

/-- C3 fails on the code: `config/config.go` attaches
`validate:"required"` not only to the string field `App.Name` but also to
the struct-valued field `Config.App`, so Required is not restricted to
string fields. -/
theorem required_only_on_strings_counterexample :
    ¬ (∀ d ∈ configFieldDecls,
        VRule.required ∈ d.rules → d.isStringField = true) := by
  decide

/-- C3 as amended: a Required rule on the string field `Config.App.Name`
fires iff the bound string is empty; Required is attached to string fields
and additionally to the struct-valued field `Config.App`, where it fires
iff the whole `AppConfig` struct is zero-valued. -/
theorem required_semantics (cfg : Config) :
    ((⟨"Config.App.Name", .required, .str cfg.app.name⟩ : Violation) ∈
        validateConfig cfg ↔ cfg.app.name = "") ∧
    ((⟨"Config.App", .required, .structv cfg.app.isZero⟩ : Violation) ∈
        validateConfig cfg ↔ cfg.app.isZero = true) ∧
    (∀ d ∈ configFieldDecls, VRule.required ∈ d.rules →
      d.isStringField = true ∨ d.path = "Config.App") := by
  refine ⟨?_, ?_, by decide⟩
  · rw [validateConfig_eq, runRules_required, runRules_required,
      runRules_omitempty_oneof, runRules_gte_lte]
    split_ifs <;> simp_all [FieldVal.isZero]
  · rw [validateConfig_eq, runRules_required, runRules_required,
      runRules_omitempty_oneof, runRules_gte_lte]
    split_ifs <;> simp_all [FieldVal.isZero]

/-- Witness for the amended C3: the empty-name config produces the
Required violation on `Config.App.Name`, and the one Required-bearing
non-string declaration is `Config.App`. -/
theorem required_semantics_witness :
    ((⟨"Config.App.Name", .required, .str ""⟩ : Violation) ∈
        validateConfig cfgEmptyName) ∧
    ((⟨"Config.App", false, [VRule.required]⟩ : FieldDecl).isStringField = true ∨
      (⟨"Config.App", false, [VRule.required]⟩ : FieldDecl).path = "Config.App") :=
  ⟨(required_semantics cfgEmptyName).1.mpr rfl,
    (required_semantics cfgEmptyName).2.2
      ⟨"Config.App", false, [VRule.required]⟩ (by decide) (by decide)⟩

/-! ## Claim theorems: validation exhaustiveness (C4) -/

/-- C4: a bound config that violates exactly the Required rule on
`app.name` (with a non-zero `App` struct) and the range rule on
`server.port` produces exactly two violations, one per offending field, in
field-declaration order — the validator does not stop at the first
failure. -/
theorem validation_collects_all (cfg : Config)
    (hname : cfg.app.name = "")
    (hnz : cfg.app.isZero = false)
    (henv : cfg.app.environment = "" ∨
      allowedEnvironments.contains cfg.app.environment = true)
    (hport : cfg.server.port < 1024 ∨ 9000 < cfg.server.port) :
    validateConfig cfg =
      [⟨"Config.App.Name", .required, .str ""⟩,
        if cfg.server.port < 1024 then
          ⟨"Config.Server.Port", .gte 1024, .intv cfg.server.port⟩
        else ⟨"Config.Server.Port", .lte 9000, .intv cfg.server.port⟩] := by
  rw [validateConfig_eq, runRules_required, runRules_required,
    runRules_omitempty_oneof, runRules_gte_lte, hnz, hname]
  rcases hport with hp | hp
  · have hif : (if cfg.server.port < 1024 then
        (⟨"Config.Server.Port", .gte 1024, .intv cfg.server.port⟩ : Violation)
        else ⟨"Config.Server.Port", .lte 9000, .intv cfg.server.port⟩) =
        ⟨"Config.Server.Port", .gte 1024, .intv cfg.server.port⟩ := if_pos hp
    rw [hif]
    have h1 : ¬ ((1024 : Int) ≤ cfg.server.port) := by omega
    rcases henv with he | he
    · simp [FieldVal.isZero, he, rulePasses, h1]
    · have he' : cfg.app.environment ∈ allowedEnvironments := by simpa using he
      simp [FieldVal.isZero, rulePasses, h1, he']
  · have hif : (if cfg.server.port < 1024 then
        (⟨"Config.Server.Port", .gte 1024, .intv cfg.server.port⟩ : Violation)
        else ⟨"Config.Server.Port", .lte 9000, .intv cfg.server.port⟩) =
        ⟨"Config.Server.Port", .lte 9000, .intv cfg.server.port⟩ :=
      if_neg (by omega)
    rw [hif]
    have h1 : (1024 : Int) ≤ cfg.server.port := by omega
    have h2 : ¬ (cfg.server.port ≤ (9000 : Int)) := by omega
    rcases henv with he | he
    · simp [FieldVal.isZero, he, rulePasses, h1, h2]
    · have he' : cfg.app.environment ∈ allowedEnvironments := by simpa using he
      simp [FieldVal.isZero, rulePasses, h1, h2, he']

/-! ## Helper lemmas about the binder -/

/-- A successful whole-config bind means the app group bound to the
config's `App` field. -/
theorem bind_ok_app {t : ConfigTree} {cfg : Config}
    (h : bind t = .ok cfg) : bindApp t = .ok cfg.app := by
  rw [bind] at h
  cases hA : bindApp t with
  | error e => rw [hA] at h; simp [andThenE] at h
  | ok a =>
    rw [hA] at h
    cases hS : bindServer t with
    | error e => rw [hS] at h; simp [andThenE] at h
    | ok sv =>
      rw [hS] at h
      cases hD : bindDatabase t with
      | error e => rw [hD] at h; simp [andThenE] at h
      | ok db =>
        rw [hD] at h
        cases hL : bindLogging t with
        | error e => rw [hL] at h; simp [andThenE] at h
        | ok lg =>
          rw [hL] at h
          simp [andThenE] at h
          rw [← h]

/-- Reduction of `andThenE` on a success. -/
theorem andThenE_ok {α β : Type} (a : α) (f : α → Except BindError β) :
    andThenE (.ok a) f = f a := rfl

/-- Reduction of `andThenE` on a failure. -/
theorem andThenE_error {α β : Type} (e : BindError)
    (f : α → Except BindError β) :
    andThenE (.error e) f = (.error e : Except BindError β) := rfl

/-- An absent key coerces to the zero string. -/
theorem asStr_none (key : String) : asStr key none = Except.ok "" := rfl

/-- If the app group has no `name` entry, a successful app bind leaves the
name at its zero value. -/
theorem bindApp_ok_name_default {t : ConfigTree} {a : AppConfig}
    {m : List (String × ExtValue)}
    (h : bindApp t = .ok a) (hg : getGroup t "app" = .ok m)
    (hname : lookupExt "name" m = none) : a.name = "" := by
  rw [bindApp, hg] at h
  simp only [andThenE_ok] at h
  rw [hname] at h
  simp only [asStr_none, andThenE_ok] at h
  cases hv : asStr "app.version" (lookupExt "version" m) with
  | error e => rw [hv] at h; simp [andThenE_error] at h
  | ok vv =>
    rw [hv] at h
    simp only [andThenE_ok] at h
    cases he : asStr "app.environment" (lookupExt "environment" m) with
    | error e => rw [he] at h; simp [andThenE_error] at h
    | ok ev =>
      rw [he] at h
      simp only [andThenE_ok] at h
      injection h with h2
      rw [← h2]

/-! ## Claim theorems: TypeMismatch aborts before validation (C5) -/

/-- C5: a merged snapshot whose `server.port` holds a non-numeric string
(all earlier fields binding fine) makes the bind fail with a
`TypeMismatch`, the resolution call returns the error instead of a typed
config, and the validator is never consulted — the outcome is the same for
every possible validator. -/
theorem typeMismatch_aborts_before_validation (t : ConfigTree)
    (m : List (String × ExtValue)) (s hostVal : String) (a : AppConfig)
    (happ : bindApp t = .ok a)
    (hsg : getGroup t "server" = .ok m)
    (hhost : asStr "server.host" (lookupExt "host" m) = .ok hostVal)
    (hport : lookupExt "port" m = some (.str s))
    (hs : parseInt? s = none) :
    bind t = .error (.typeMismatch "server.port" "int" (.str s)) ∧
    ∀ validate : Config → List Violation,
      loadAndValidateWith validate t =
        .error (.unmarshalError (.typeMismatch "server.port" "int" (.str s))) := by
  have hserver : bindServer t =
      .error (.typeMismatch "server.port" "int" (.str s)) := by
    rw [bindServer, hsg]
    simp only [andThenE_ok]
    rw [hhost]
    simp only [andThenE_ok]
    rw [hport]
    simp only [asInt, hs, andThenE_error]
  have hbind : bind t =
      .error (.typeMismatch "server.port" "int" (.str s)) := by
    rw [bind, happ]
    simp only [andThenE_ok]
    rw [hserver]
    simp only [andThenE_error]
  refine ⟨hbind, fun validate => ?_⟩
  rw [loadAndValidateWith, hbind]

/-- Witness for C5 at the concrete snapshot: binding fails with the
`server.port` TypeMismatch, and the call errors out identically under the
real validator and under a trivial one. -/
theorem typeMismatch_aborts_before_validation_witness :
    bind badPortTree =
      .error (.typeMismatch "server.port" "int" (.str "not-a-number")) ∧
    loadAndValidateWith validateConfig badPortTree =
      .error (.unmarshalError
        (.typeMismatch "server.port" "int" (.str "not-a-number"))) ∧
    loadAndValidateWith (fun _ => []) badPortTree =
      .error (.unmarshalError
        (.typeMismatch "server.port" "int" (.str "not-a-number"))) :=
  ⟨(typeMismatch_aborts_before_validation badPortTree
      [("port", ExtValue.str "not-a-number")] "not-a-number" "" ⟨"", "", ""⟩
      rfl rfl rfl rfl rfl).1,
    (typeMismatch_aborts_before_validation badPortTree
      [("port", ExtValue.str "not-a-number")] "not-a-number" "" ⟨"", "", ""⟩
      rfl rfl rfl rfl rfl).2 validateConfig,
    (typeMismatch_aborts_before_validation badPortTree
      [("port", ExtValue.str "not-a-number")] "not-a-number" "" ⟨"", "", ""⟩
      rfl rfl rfl rfl rfl).2 (fun _ => [])⟩

/-! ## Claim theorems: missing file degrades gracefully (C6) -/

/-- C6: a missing config file is reported as the informational
"no config file" status, not an error, and a resolution over the remaining
layers in which no layer supplies `app.name` still binds; the missing
required field surfaces as a Required violation from validation, not as a
resolution-stage error. -/
theorem no_config_file_degrades (t : ConfigTree) (cfg : Config)
    (m : List (String × ExtValue))
    (hbind : bind t = .ok cfg)
    (hg : getGroup t "app" = .ok m)
    (hname : lookupExt "name" m = none) :
    initConfigStatus .notFound = .infoNoConfigFile ∧
    loadAndValidateConfig t = .error (.validationFailed (validateConfig cfg)) ∧
    (⟨"Config.App.Name", .required, .str ""⟩ : Violation) ∈
      validateConfig cfg := by
  have hn : cfg.app.name = "" :=
    bindApp_ok_name_default (bind_ok_app hbind) hg hname
  have hv : (⟨"Config.App.Name", .required, .str ""⟩ : Violation) ∈
      validateConfig cfg := by
    rw [validateConfig_eq]
    simp [runRules_required, hn, FieldVal.isZero]
  refine ⟨rfl, ?_, hv⟩
  have hred : loadAndValidateConfig t =
      match validateConfig cfg with
      | [] => .ok cfg
      | v :: vs => .error (.validationFailed (v :: vs)) := by
    rw [loadAndValidateConfig, loadAndValidateWith, hbind]
  rw [hred]
  cases hl : validateConfig cfg with
  | nil => rw [hl] at hv; simp at hv
  | cons v vs => rfl

/-- Witness for C6 at the empty snapshot (no file, no flags, no env):
binding succeeds with the all-zero config and the Required violation on
`Config.App.Name` is among the reported validation violations. -/
theorem no_config_file_degrades_witness :
    initConfigStatus .notFound = .infoNoConfigFile ∧
    loadAndValidateConfig ([] : ConfigTree) =
      .error (.validationFailed (validateConfig defaultConfig)) ∧
    (⟨"Config.App.Name", .required, .str ""⟩ : Violation) ∈
      validateConfig defaultConfig :=
  no_config_file_degrades ([] : ConfigTree) defaultConfig [] rfl rfl rfl

/-! ## Claim theorems: extensions round-trip (C2) -/

/-- Keep-by-key filters do not disturb the lookup of a kept key. -/
theorem lookupExt_filter_pos (p : String → Bool)
    (t : List (String × ExtValue)) (k : String) (hk : p k = true) :
    lookupExt k (t.filter fun q => p q.1) = lookupExt k t := by
  induction t with
  | nil => rfl
  | cons hd tl ih =>
    obtain ⟨k', v⟩ := hd
    by_cases h : k' = k
    · subst h
      simp [List.filter_cons, hk, lookupExt]
    · cases hp : p k' <;> simp [List.filter_cons, hp, lookupExt, h, ih]

/-- A key removed by a keep-by-key filter is not found afterwards. -/
theorem lookupExt_filter_neg (p : String → Bool)
    (t : List (String × ExtValue)) (k : String) (hk : p k = false) :
    lookupExt k (t.filter fun q => p q.1) = none := by
  induction t with
  | nil => rfl
  | cons hd tl ih =>
    obtain ⟨k', v⟩ := hd
    by_cases h : k' = k
    · subst h
      simp [List.filter_cons, hk, ih]
    · cases hp : p k' <;> simp [List.filter_cons, hp, lookupExt, h, ih]

/-- Looking up a non-fixed group in the `",remain"` residue is looking it
up in the snapshot itself. -/
theorem lookupExt_extensionsOf (t : ConfigTree) (g : String)
    (hg : fixedGroups.contains g = false) :
    lookupExt g (extensionsOf t) = lookupExt g t :=
  lookupExt_filter_pos (fun s => !fixedGroups.contains s) t g
    (by simp only [hg, Bool.not_false])

/-- Group access ignores entries outside the fixed groups. -/
theorem getGroup_restrictFixed (t : ConfigTree) (g : String)
    (hg : fixedGroups.contains g = true) :
    getGroup (restrictFixed t) g = getGroup t g := by
  rw [getGroup, getGroup, restrictFixed,
    lookupExt_filter_pos (fun s => fixedGroups.contains s) t g hg]

/-- The app bind ignores entries outside the fixed groups. -/
theorem bindApp_restrictFixed (t : ConfigTree) :
    bindApp (restrictFixed t) = bindApp t := by
  simp only [bindApp]
  rw [getGroup_restrictFixed t "app" (by decide)]

/-- The server bind ignores entries outside the fixed groups. -/
theorem bindServer_restrictFixed (t : ConfigTree) :
    bindServer (restrictFixed t) = bindServer t := by
  simp only [bindServer]
  rw [getGroup_restrictFixed t "server" (by decide)]

/-- The database bind ignores entries outside the fixed groups. -/
theorem bindDatabase_restrictFixed (t : ConfigTree) :
    bindDatabase (restrictFixed t) = bindDatabase t := by
  simp only [bindDatabase]
  rw [getGroup_restrictFixed t "database" (by decide)]

/-- The logging bind ignores entries outside the fixed groups. -/
theorem bindLogging_restrictFixed (t : ConfigTree) :
    bindLogging (restrictFixed t) = bindLogging t := by
  simp only [bindLogging]
  rw [getGroup_restrictFixed t "logging" (by decide)]

/-- C2: a key under a top-level group outside \x7bapp, server, database,
logging\x7d never obstructs binding — whenever the fixed groups alone bind
to `cfg0`, the full snapshot binds too, with exactly the same fixed
fields (the extension key populates none of them) and with the group's
full nested value intact in `Extensions` under its top-level segment. -/
theorem extensions_roundtrip (t : ConfigTree) (g : String) (v : ExtValue)
    (cfg0 : Config)
    (hg : fixedGroups.contains g = false)
    (hv : lookupExt g t = some v)
    (h0 : bind (restrictFixed t) = .ok cfg0) :
    bind t = .ok ⟨cfg0.app, cfg0.server, cfg0.database, cfg0.logging,
      extensionsOf t⟩ ∧
    lookupExt g (extensionsOf t) = some v := by
  rw [bind, bindApp_restrictFixed, bindServer_restrictFixed,
    bindDatabase_restrictFixed, bindLogging_restrictFixed] at h0
  refine ⟨?_, by rw [lookupExt_extensionsOf t g hg]; exact hv⟩
  rw [bind]
  cases hA : bindApp t with
  | error e => rw [hA] at h0; simp [andThenE_error] at h0
  | ok a =>
    rw [hA] at h0
    simp only [andThenE_ok] at h0
    cases hS : bindServer t with
    | error e => rw [hS] at h0; simp [andThenE_error] at h0
    | ok sv =>
      rw [hS] at h0
      simp only [andThenE_ok] at h0
      cases hD : bindDatabase t with
      | error e => rw [hD] at h0; simp [andThenE_error] at h0
      | ok db =>
        rw [hD] at h0
        simp only [andThenE_ok] at h0
        cases hL : bindLogging t with
        | error e => rw [hL] at h0; simp [andThenE_error] at h0
        | ok lg =>
          rw [hL] at h0
          simp only [andThenE_ok] at h0
          injection h0 with h0
          rw [← h0]
          simp [andThenE_ok]

/-- Witness for C2 at the concrete snapshot: the full tree binds, the
fixed fields are those of the fixed-groups-only bind, and
`custom`'s nested value sits intact in `Extensions`. -/
theorem extensions_roundtrip_witness :
    bind customTree = .ok ⟨⟨"myapp", "", ""⟩, ⟨"", 0, 0⟩,
      ⟨"", 0, "", "", ""⟩, ⟨"", ""⟩,
      [("custom", ExtValue.map [("team", ExtValue.str "platform")])]⟩ ∧
    lookupExt "custom" (extensionsOf customTree) =
      some (ExtValue.map [("team", ExtValue.str "platform")]) :=
  extensions_roundtrip customTree "custom"
    (ExtValue.map [("team", ExtValue.str "platform")])
    ⟨⟨"myapp", "", ""⟩, ⟨"", 0, 0⟩, ⟨"", 0, "", "", ""⟩, ⟨"", ""⟩, []⟩
    rfl rfl rfl

/-! ## Claim theorems: extension getters are total and type-safe (C10) -/

/-- The loop of `GetExtensionString`, characterised by path resolution: on
a non-empty key list it returns `(s, true)` iff the path resolves from the
current value to the string `s`, and `("", false)` in every other case. -/
theorem getExtensionStringAux_spec (keys : List String) (hk : keys ≠ []) :
    ∀ cur : Option ExtValue,
      getExtensionStringAux cur keys =
        match cur with
        | some v =>
          (match resolvePath v keys with
            | some (ExtValue.str s) => (s, true)
            | _ => ("", false))
        | none => ("", false) := by
  induction keys with
  | nil => exact absurd rfl hk
  | cons k rest ih =>
    cases rest with
    | nil =>
      intro cur
      rcases cur with _ | v
      · rfl
      · cases v with
        | map m =>
          simp only [getExtensionStringAux, resolvePath]
          cases hl : lookupExt k m with
          | none => simp [resolvePath]
          | some v' => cases v' <;> simp [resolvePath]
        | str s => rfl
        | int n => rfl
        | bool b => rfl
        | list xs => rfl
    | cons k2 rest2 =>
      intro cur
      rcases cur with _ | v
      · rfl
      · cases v with
        | map m =>
          have hstep :
              getExtensionStringAux (some (ExtValue.map m)) (k :: k2 :: rest2) =
                getExtensionStringAux (lookupExt k m) (k2 :: rest2) := rfl
          rw [hstep, ih (by simp) (lookupExt k m)]
          cases hl : lookupExt k m with
          | none => simp [resolvePath, hl]
          | some v' => simp [resolvePath, hl]
        | str s => rfl
        | int n => rfl
        | bool b => rfl
        | list xs => rfl

/-- The loop of `GetExtensionBool`, characterised by path resolution. -/
theorem getExtensionBoolAux_spec (keys : List String) (hk : keys ≠ []) :
    ∀ cur : Option ExtValue,
      getExtensionBoolAux cur keys =
        match cur with
        | some v =>
          (match resolvePath v keys with
            | some (ExtValue.bool b) => (b, true)
            | _ => (false, false))
        | none => (false, false) := by
  induction keys with
  | nil => exact absurd rfl hk
  | cons k rest ih =>
    cases rest with
    | nil =>
      intro cur
      rcases cur with _ | v
      · rfl
      · cases v with
        | map m =>
          simp only [getExtensionBoolAux, resolvePath]
          cases hl : lookupExt k m with
          | none => simp [resolvePath]
          | some v' => cases v' <;> simp [resolvePath]
        | str s => rfl
        | int n => rfl
        | bool b => rfl
        | list xs => rfl
    | cons k2 rest2 =>
      intro cur
      rcases cur with _ | v
      · rfl
      · cases v with
        | map m =>
          have hstep :
              getExtensionBoolAux (some (ExtValue.map m)) (k :: k2 :: rest2) =
                getExtensionBoolAux (lookupExt k m) (k2 :: rest2) := rfl
          rw [hstep, ih (by simp) (lookupExt k m)]
          cases hl : lookupExt k m with
          | none => simp [resolvePath, hl]
          | some v' => simp [resolvePath, hl]
        | str s => rfl
        | int n => rfl
        | bool b => rfl
        | list xs => rfl

/-- The loop of `GetExtensionInt`, characterised by path resolution. -/
theorem getExtensionIntAux_spec (keys : List String) (hk : keys ≠ []) :
    ∀ cur : Option ExtValue,
      getExtensionIntAux cur keys =
        match cur with
        | some v =>
          (match resolvePath v keys with
            | some (ExtValue.int n) => (n, true)
            | _ => (0, false))
        | none => (0, false) := by
  induction keys with
  | nil => exact absurd rfl hk
  | cons k rest ih =>
    cases rest with
    | nil =>
      intro cur
      rcases cur with _ | v
      · rfl
      · cases v with
        | map m =>
          simp only [getExtensionIntAux, resolvePath]
          cases hl : lookupExt k m with
          | none => simp [resolvePath]
          | some v' => cases v' <;> simp [resolvePath]
        | str s => rfl
        | int n => rfl
        | bool b => rfl
        | list xs => rfl
    | cons k2 rest2 =>
      intro cur
      rcases cur with _ | v
      · rfl
      · cases v with
        | map m =>
          have hstep :
              getExtensionIntAux (some (ExtValue.map m)) (k :: k2 :: rest2) =
                getExtensionIntAux (lookupExt k m) (k2 :: rest2) := rfl
          rw [hstep, ih (by simp) (lookupExt k m)]
          cases hl : lookupExt k m with
          | none => simp [resolvePath, hl]
          | some v' => simp [resolvePath, hl]
        | str s => rfl
        | int n => rfl
        | bool b => rfl
        | list xs => rfl

/-- C10: on every `Config` and every key list — the empty one included —
the three extension getters equal their path-resolution specification:
they return `(value, true)` exactly when the full path resolves through
nested maps to a value of the requested type, and the zero value paired
with `false` whenever the path is missing, traverses a non-map, or ends at
a value of a different type. (Being Lean functions on immutable values,
they are total and cannot panic or mutate the receiver.) -/
theorem extension_getters_total (c : Config) (keys : List String) :
    c.GetExtensionString keys = extensionStringSpec c keys ∧
    c.GetExtensionBool keys = extensionBoolSpec c keys ∧
    c.GetExtensionInt keys = extensionIntSpec c keys := by
  refine ⟨?_, ?_, ?_⟩
  · cases keys with
    | nil => rfl
    | cons k rest =>
      rw [Config.GetExtensionString, getExtensionStringAux_spec (k :: rest)
        (by simp) (some (ExtValue.map c.extensions))]
      rfl
  · cases keys with
    | nil => rfl
    | cons k rest =>
      rw [Config.GetExtensionBool, getExtensionBoolAux_spec (k :: rest)
        (by simp) (some (ExtValue.map c.extensions))]
      rfl
  · cases keys with
    | nil => rfl
    | cons k rest =>
      rw [Config.GetExtensionInt, getExtensionIntAux_spec (k :: rest)
        (by simp) (some (ExtValue.map c.extensions))]
      rfl

/-- Witness for C4: empty name, version `1.0.0`, port 9001 yields exactly
the Required violation on the name and the `lte` violation on the port. -/
theorem validation_collects_all_witness :
    validateConfig
      ⟨⟨"", "1.0.0", "production"⟩, ⟨"localhost", 9001, 30⟩,
        ⟨"db.local", 5432, "user", "password", "dbname"⟩,
        ⟨"info", "json"⟩, []⟩ =
      [⟨"Config.App.Name", .required, .str ""⟩,
        ⟨"Config.Server.Port", .lte 9000, .intv 9001⟩] := by
  have h := validation_collects_all
    ⟨⟨"", "1.0.0", "production"⟩, ⟨"localhost", 9001, 30⟩,
      ⟨"db.local", 5432, "user", "password", "dbname"⟩,
      ⟨"info", "json"⟩, []⟩
    rfl rfl (Or.inr rfl) (Or.inr (by decide))
  simpa using h

end CobraViper
